import Mathlib

set_option autoImplicit false

/-!
Shallow embedding of the Hero Wallet core: the crypto utilities
(`crypto.ts`), the keystore session manager and wallet storage
(`keystore.ts`), the approval handlers (`approvalHandler.ts`) and the
background request/approval engine (`background.ts`).  Pure functions of
the TypeScript source become Lean functions; the mutable session and the
pending-request maps become explicit state passing; thrown errors become
`Except`.  Platform primitives that live outside the repository
(WebCrypto, `atob`/`btoa`, `JSON`, chain SDKs) are parameters of the
embedding, and theorems assume only the instances of their documented
contracts that the source relies on.
-/

namespace HeroWallet

/-- Supported chains, the `Chain` union type of `keystore.ts`. -/
inductive Chain
  | evm | btc | sol | ton | sui | hedera
deriving DecidableEq, Repr

/-- Encrypted blob `{iv, salt, ct}` stored on accounts and on the mnemonic. -/
structure EncBlob where
  iv : String
  salt : String
  ct : String
deriving DecidableEq, Repr

/-- `StoredAccount` from `keystore.ts`.  JavaScript numbers are modelled as
integers; none of the verified behavior exercises fractional values. -/
structure StoredAccount where
  id : String
  name : String
  chain : Chain
  pubkey : String
  address : String
  path : String
  enc : EncBlob
  createdAt : Int
deriving DecidableEq, Repr

/-- `OriginPermission` from `keystore.ts`. -/
structure OriginPermission where
  allowed : Bool
  selectedAccountId : Option String
  chainOverride : Option Chain
  connectedAt : Int
  lastUsed : Int
deriving DecidableEq, Repr

/-- `WalletState` from `keystore.ts`; the `origins` record is an
association list keyed by origin. -/
structure WalletState where
  origins : List (String × OriginPermission)
  accounts : List StoredAccount
  mnemonic : Option EncBlob
  createdAt : Int
  version : String
deriving DecidableEq, Repr

deriving instance DecidableEq for Except

/-- `KeystoreError` carries a message and a machine code. -/
structure KeystoreErr where
  message : String
  code : String
deriving DecidableEq, Repr

/-- `CryptoError` carries a message and a machine code. -/
structure CryptoErr where
  message : String
  code : String
deriving DecidableEq, Repr

/-- Wire-level error `{code, message}` sent back to pages. -/
structure JsErr where
  code : Int
  message : String
deriving DecidableEq, Repr

/-- Request ids are `string | number` throughout `background.ts`. -/
inductive RequestId
  | str (s : String)
  | num (n : Int)
deriving DecidableEq, Repr

/-- First-match association-list lookup, the JS object/Map read. -/
def alookup {K V : Type} [DecidableEq K] : List (K × V) → K → Option V
  | [], _ => none
  | kv :: rest, key => if kv.1 = key then some kv.2 else alookup rest key

/-- Removal of a key, the JS `Map.delete` / `delete obj[k]`. -/
def aerase {K V : Type} [DecidableEq K] (m : List (K × V)) (key : K) :
    List (K × V) :=
  m.filter fun kv => decide (kv.1 ≠ key)

/-- Key update, the JS object spread `{...m, [key]: v}` / `Map.set`.
(The JS spread keeps an existing key at its original position; only the
key-value content matters to the verified properties, so the updated
binding is appended.) -/
def ainsert {K V : Type} [DecidableEq K] (m : List (K × V)) (key : K) (v : V) :
    List (K × V) :=
  aerase m key ++ [(key, v)]

/-! ## Crypto engine (`crypto.ts`)

The WebCrypto calls (`PBKDF2` key derivation, `AES-GCM`
encrypt/decrypt), text codecs and `JSON` live outside the repository, so
the embedding is parameterized over them.  `K` is the type of derived
`CryptoKey` values, `B` the type of byte buffers
(`Uint8Array`/`ArrayBuffer`), `P` the type of JSON-serializable
plaintext values. -/

/-- Platform primitives consumed by `crypto.ts`. -/
structure CryptoPrims (K B P : Type) where
  utf8enc : String → B
  utf8dec : B → String
  blen : B → Nat
  b64encode : B → String
  b64decode : String → Except CryptoErr B
  deriveRaw : B → B → K
  aesEnc : K → B → B → B
  aesDec : K → B → B → Option B
  stringify : P → String
  parse : String → Option P

/-- `KeyDerivation.deriveKey(pin, salt)`: input validation followed by
PBKDF2 over the utf8 bytes of the pin.  (The WebCrypto calls themselves
are modelled as total; the catch-all `KEY_DERIVATION_FAILED` branch is
therefore unreachable here.) -/
def deriveKey {K B P : Type} (pr : CryptoPrims K B P) (pin : String)
    (salt : B) : Except CryptoErr K :=
  if pin = "" then
    .error ⟨"PIN is required and must be a string", "INVALID_PIN"⟩
  else if pin.length < 4 then
    .error ⟨"PIN must be at least 4 characters", "PIN_TOO_SHORT"⟩
  else if pr.blen salt ≠ 32 then
    .error ⟨"Salt must be 32 bytes", "INVALID_SALT"⟩
  else
    .ok (pr.deriveRaw (pr.utf8enc pin) salt)

/-- `AESEncryption.encrypt(data, key, iv)`: returns base64 iv and
ciphertext.  The iv, random in the source, is an explicit argument. -/
def aesEncrypt {K B P : Type} (pr : CryptoPrims K B P) (data : String)
    (key : K) (iv : B) : Except CryptoErr (String × String) :=
  if data = "" then
    .error ⟨"Data must be a non-empty string", "INVALID_DATA"⟩
  else
    .ok (pr.b64encode iv, pr.b64encode (pr.aesEnc key iv (pr.utf8enc data)))

/-- `AESEncryption.decrypt(ivB64, ciphertextB64, key)`: base64 decode,
iv length check, AES-GCM decrypt (authentication failure becomes
`DECRYPTION_FAILED`), text decode. -/
def aesDecrypt {K B P : Type} (pr : CryptoPrims K B P)
    (ivB64 ctB64 : String) (key : K) : Except CryptoErr String :=
  if ivB64 = "" ∨ ctB64 = "" then
    .error ⟨"IV, ciphertext, and key are required", "MISSING_DECRYPT_PARAMS"⟩
  else
    match pr.b64decode ivB64 with
    | .error e => .error e
    | .ok iv =>
      match pr.b64decode ctB64 with
      | .error e => .error e
      | .ok ct =>
        if pr.blen iv ≠ 12 then
          .error ⟨"Invalid IV length", "INVALID_IV_LENGTH"⟩
        else
          match pr.aesDec key iv ct with
          | none =>
            .error ⟨"Failed to decrypt data - invalid PIN or corrupted data",
                    "DECRYPTION_FAILED"⟩
          | some pt => .ok (pr.utf8dec pt)

/-- `CryptoUtils.encryptJSON(data, pin, salt)`: stringify, derive key,
encrypt, package `{iv, salt, ciphertext}` (all base64). -/
def encryptJSON {K B P : Type} (pr : CryptoPrims K B P) (data : P)
    (pin : String) (salt iv : B) : Except CryptoErr EncBlob :=
  let jsonString := pr.stringify data
  if jsonString = "" then
    .error ⟨"Failed to serialize data to JSON", "JSON_SERIALIZATION_FAILED"⟩
  else
    match deriveKey pr pin salt with
    | .error e => .error e
    | .ok key =>
      match aesEncrypt pr jsonString key iv with
      | .error e => .error e
      | .ok e => .ok ⟨e.1, pr.b64encode salt, e.2⟩

/-- `CryptoUtils.decryptJSON(pin, ivB64, saltB64, ctB64)`: decode salt,
derive key, decrypt, parse JSON (`SyntaxError` becomes `INVALID_JSON`). -/
def decryptJSON {K B P : Type} (pr : CryptoPrims K B P)
    (pin ivB64 saltB64 ctB64 : String) : Except CryptoErr P :=
  match pr.b64decode saltB64 with
  | .error e => .error e
  | .ok salt =>
    match deriveKey pr pin salt with
    | .error e => .error e
    | .ok key =>
      match aesDecrypt pr ivB64 ctB64 key with
      | .error e => .error e
      | .ok s =>
        match pr.parse s with
        | none => .error ⟨"Decrypted data is not valid JSON", "INVALID_JSON"⟩
        | some v => .ok v

/-- The derived key produced inside `encryptJSON`/`decryptJSON` for a
pin and salt (PBKDF2 over the utf8 pin bytes). -/
def pinKey {K B P : Type} (pr : CryptoPrims K B P) (pin : String)
    (salt : B) : K :=
  pr.deriveRaw (pr.utf8enc pin) salt

/-- The AES-GCM ciphertext bytes produced by `encryptJSON pr x pin salt
iv` before base64 encoding. -/
def gcmBlob {K B P : Type} (pr : CryptoPrims K B P) (x : P) (pin : String)
    (salt iv : B) : B :=
  pr.aesEnc (pinKey pr pin salt) iv (pr.utf8enc (pr.stringify x))

/-! ## Session manager (`keystore.ts`, class `SessionManager`) -/

/-- In-memory session singleton: `unlocked`, `pin`, the armed auto-lock
timer (modelled by the ttl it was armed with) and `unlockTime`. -/
structure Session where
  unlocked : Bool
  pin : Option String
  lockTimer : Option Int
  unlockTime : Option Int
deriving DecidableEq, Repr

/-- The session as constructed at startup: locked, no pin, no timer. -/
def Session.initial : Session :=
  { unlocked := false, pin := none, lockTimer := none, unlockTime := none }

/-- `isUnlocked()`: `unlocked && pin !== null`. -/
def isUnlocked (s : Session) : Bool :=
  s.unlocked && s.pin.isSome

/-- `requireUnlocked()`: throws `WALLET_LOCKED` when not unlocked. -/
def requireUnlocked (s : Session) : Except KeystoreErr Unit :=
  if isUnlocked s then .ok ()
  else .error ⟨"Wallet is locked - please unlock first", "WALLET_LOCKED"⟩

/-- `getSessionPin()`: `requireUnlocked` then the non-null pin
(`this.pin!`; the guard makes the default unreachable). -/
def getSessionPin (s : Session) : Except KeystoreErr String :=
  match requireUnlocked s with
  | .error e => .error e
  | .ok _ => .ok (s.pin.getD "")

/-- `lockNow()`: wipes the pin, clears `unlocked` and `unlockTime`,
cancels the auto-lock timer.  It touches nothing else. -/
def lockNow (_s : Session) : Session :=
  { unlocked := false, pin := none, lockTimer := none, unlockTime := none }

/-- `SessionManager.unlock(pin, ttlMs)`: pin validation, then an attempt
to decrypt the stored mnemonic canary (when present) under the pin; on
success the session becomes unlocked with the pin in memory and the
auto-lock timer armed for `ttlMs`; on failure the session is returned
unchanged together with the raised error.  `loaded` is the result of the
inner `WalletStorage.loadState()` call; `now` is `Date.now()`. -/
def unlock {K B P : Type} (pr : CryptoPrims K B P) (s : Session)
    (loaded : Except KeystoreErr (Option WalletState))
    (pin : String) (ttlMs : Int) (now : Int) : Session × Option KeystoreErr :=
  if pin = "" then
    (s, some ⟨"PIN is required", "INVALID_PIN"⟩)
  else if pin.length < 4 then
    (s, some ⟨"PIN must be at least 4 characters", "PIN_TOO_SHORT"⟩)
  else
    match loaded with
    | .error _ => (s, some ⟨"Failed to unlock wallet", "UNLOCK_FAILED"⟩)
    | .ok stateOpt =>
      let canary : Except CryptoErr Unit :=
        match stateOpt with
        | some st =>
          match st.mnemonic with
          | some mn =>
            ((decryptJSON pr pin mn.iv mn.salt mn.ct : Except CryptoErr P).map
              fun _ => ())
          | none => .ok ()
        | none => .ok ()
      match canary with
      | .error e =>
        if e.code = "DECRYPTION_FAILED" then
          (s, some ⟨"Invalid PIN", "INVALID_PIN"⟩)
        else
          (s, some ⟨"Failed to unlock wallet", "UNLOCK_FAILED"⟩)
      | .ok _ =>
        ({ unlocked := true, pin := some pin,
           lockTimer := some ttlMs, unlockTime := some now }, none)

/-! ## Background engine state (`background.ts`) -/

/-- What the engine does to a resolved request: the value handed to the
stored `resolve` callback. -/
inductive ResValue
  | strs (xs : List String)
  | str (s : String)
  | passthrough (r : Option String)
  | solPlaceholderSig
deriving DecidableEq, Repr

/-- A call of a stored `resolve`/`reject` callback, as observed by the
original caller. -/
inductive Outcome
  | resolved (id : RequestId) (v : ResValue)
  | rejected (id : RequestId) (e : JsErr)
deriving DecidableEq, Repr

/-- The request id a callback call belongs to. -/
def Outcome.oid : Outcome → RequestId
  | .resolved id _ => id
  | .rejected id _ => id

/-- Decoded `params` stored on a `PendingRequest`, by creating handler. -/
inductive PendingParams
  | connectParams
  | solConnectParams (account : StoredAccount)
  | signMsgParams (message : String) (account : StoredAccount)
  | signTypedParams (typedData : String) (account : StoredAccount)
      (method : String)
  | sendTxParams (transaction : String) (txChainId : Option Int)
      (account : StoredAccount)
  | otherParams
deriving DecidableEq, Repr

/-- A `PendingRequest` of `background.ts`; the `resolve`/`reject`
closures are modelled by the `Outcome` values the engine emits. -/
structure PendingEntry where
  id : RequestId
  method : String
  origin : String
  params : PendingParams
deriving DecidableEq, Repr

/-- The `pendingRequests` map. -/
abbrev PendingMap := List (RequestId × PendingEntry)

/-- An entry of the `pendingUnlockRequests` map. -/
structure UnlockQueued where
  origin : String
  method : String
deriving DecidableEq, Repr

/-- The standard user-rejection error used by `background.ts`. -/
def userRejectedErr : JsErr :=
  { code := 4001, message := "User rejected the request" }

/-- The error used by the pending-unlock timeout in
`handleEthRequestAccounts`. -/
def requestTimedOutErr : JsErr :=
  { code := 4100, message := "Request timed out. Please try again." }

/-- `getConnectedAccount(origin)` of `background.ts`: reads the loaded
state (a `loadState()` failure is caught and becomes `null`, hence the
`Option` argument), requires `allowed` and a truthy `selectedAccountId`,
and matches an account by id restricted to chain `evm`.  It consults no
session state. -/
def getConnectedAccount (stateOpt : Option WalletState) (origin : String) :
    Option StoredAccount :=
  match stateOpt with
  | none => none
  | some st =>
    match alookup st.origins origin with
    | none => none
    | some perm =>
      if perm.allowed = false then none
      else
        match perm.selectedAccountId with
        | none => none
        | some sel =>
          if sel = "" then none
          else
            st.accounts.find? fun acc =>
              decide (acc.id = sel) && decide (acc.chain = Chain.evm)

/-- `handleEthAccounts(origin)`: the `eth_accounts` identity read. -/
def handleEthAccounts (stateOpt : Option WalletState) (origin : String) :
    List String :=
  match getConnectedAccount stateOpt origin with
  | some acc => [acc.address]
  | none => []

/-! ## Approval handlers (`approvalHandler.ts`) and dispatch -/

/-- External per-chain adapter and helper calls (ethers.js signing, the
network table, typed-data JSON parsing); outside the verified core. -/
structure ChainAdapters where
  signMessage : String → String → String
  signTyped : String → String → String
  parseTyped : String → Option String
  hasEvmNetwork : Int → Bool
  sendTx : String → String → Int → String

/-- Everything the engine needs from outside one call: the platform
crypto primitives, the chain adapters, the projection reading
`privateKeyHex` out of a decrypted account payload, and `Date.now()`. -/
structure EngineCtx (K B P : Type) where
  prims : CryptoPrims K B P
  adapters : ChainAdapters
  privateKeyHex : P → String
  now : Int

/-- `AccountManager.decryptAccount(account)`: `getSessionPin` (which
enforces `requireUnlocked`) then `decryptJSON` over the account blob;
crypto failures become `ACCOUNT_DECRYPT_FAILED`. -/
def decryptAccount {K B P : Type} (ctx : EngineCtx K B P) (s : Session)
    (acc : StoredAccount) : Except KeystoreErr P :=
  match getSessionPin s with
  | .error e => .error e
  | .ok pin =>
    match decryptJSON ctx.prims pin acc.enc.iv acc.enc.salt acc.enc.ct with
    | .error _ => .error ⟨"Failed to decrypt account data",
                          "ACCOUNT_DECRYPT_FAILED"⟩
    | .ok v => .ok v

/-- `handleApprovedConnection(origin, requestId)`: load state, pick the
first account whose chain is `evm`, grant the origin that account, save,
return the address list.  No session check appears on this path. -/
def handleApprovedConnection (stateOpt : Option WalletState)
    (origin : String) (now : Int) :
    Except String (WalletState × List String) :=
  match stateOpt with
  | none => .error "Wallet not initialized"
  | some st =>
    match st.accounts.find? (fun acc => decide (acc.chain = Chain.evm)) with
    | none => .error "No EVM account found"
    | some evmAccount =>
      let st2 : WalletState :=
        { st with
          origins := ainsert st.origins origin
            { allowed := true, selectedAccountId := some evmAccount.id,
              chainOverride := none, connectedAt := now, lastUsed := now } }
      .ok (st2, [evmAccount.address])

/-- `handleApprovedSignMessage(origin, message, accountId)`: find the
account, decrypt it (guarded through `getSessionPin`), sign via the EVM
adapter. -/
def handleApprovedSignMessage {K B P : Type} (ctx : EngineCtx K B P)
    (s : Session) (stateOpt : Option WalletState)
    (message : String) (accountId : String) : Except String String :=
  match stateOpt with
  | none => .error "Wallet not initialized"
  | some st =>
    match st.accounts.find? (fun acc =>
        decide (acc.id = accountId) && decide (acc.chain = Chain.evm)) with
    | none => .error "Account not found"
    | some account =>
      match decryptAccount ctx s account with
      | .error e => .error e.message
      | .ok dec =>
        .ok (ctx.adapters.signMessage (ctx.privateKeyHex dec) message)

/-- `handleApprovedSignTypedData(origin, typedData, accountId, method)`:
find the account, decrypt it (guarded through `getSessionPin`), parse
the typed data (the `JSON.parse` plus the `EIP712Domain` strip are
absorbed into the external `parseTyped`), sign via the EVM adapter. -/
def handleApprovedSignTypedData {K B P : Type} (ctx : EngineCtx K B P)
    (s : Session) (stateOpt : Option WalletState)
    (typedData : String) (accountId : String) : Except String String :=
  match stateOpt with
  | none => .error "Wallet not initialized"
  | some st =>
    match st.accounts.find? (fun acc =>
        decide (acc.id = accountId) && decide (acc.chain = Chain.evm)) with
    | none => .error "Account not found"
    | some account =>
      match decryptAccount ctx s account with
      | .error e => .error e.message
      | .ok dec =>
        match ctx.adapters.parseTyped typedData with
        | none => .error "Invalid typed data JSON"
        | some td => .ok (ctx.adapters.signTyped (ctx.privateKeyHex dec) td)

/-- `handleApprovedTransaction(origin, txParams, accountId,
currentChainId)`: find the account, decrypt it (guarded through
`getSessionPin`), resolve the chain id (transaction field first, else
the current chain), look up the network, send via the EVM adapter.
`txChainId` is the already-parsed `txParams.chainId`. -/
def handleApprovedTransaction {K B P : Type} (ctx : EngineCtx K B P)
    (s : Session) (stateOpt : Option WalletState)
    (transaction : String) (txChainId : Option Int) (accountId : String)
    (currentChainIdNum : Int) : Except String String :=
  match stateOpt with
  | none => .error "Wallet not initialized"
  | some st =>
    match st.accounts.find? (fun acc =>
        decide (acc.id = accountId) && decide (acc.chain = Chain.evm)) with
    | none => .error "Account not found"
    | some account =>
      match decryptAccount ctx s account with
      | .error e => .error e.message
      | .ok dec =>
        let chainId := txChainId.getD currentChainIdNum
        if ctx.adapters.hasEvmNetwork chainId = false then
          .error "Unsupported chain ID"
        else
          .ok (ctx.adapters.sendTx (ctx.privateKeyHex dec) transaction chainId)

/-- The `approved` arm of the `APPROVAL_RESPONSE` listener
(`background.ts`): per-method dispatch producing the possibly-updated
persisted state and either a value for `resolve` or an error for
`reject`.  The `| _ =>` params arms model the `as any` casts failing on
a mismatched entry (a `TypeError` caught by the surrounding `try`,
hence `-32603`); entries created by the engine always match. -/
def dispatchApprovedCore {K B P : Type} (ctx : EngineCtx K B P) (s : Session)
    (stateOpt : Option WalletState) (pending : PendingEntry)
    (respResult : Option String) :
    Option WalletState × Except JsErr ResValue :=
  if pending.method = "eth_requestAccounts" then
    match handleApprovedConnection stateOpt pending.origin ctx.now with
    | .ok r => (some r.1, .ok (.strs r.2))
    | .error msg => (stateOpt, .error ⟨-32603, msg⟩)
  else if pending.method = "solana_connect" then
    match pending.params with
    | .solConnectParams account =>
      match stateOpt with
      | some st =>
        let st2 : WalletState :=
          { st with
            origins := ainsert st.origins pending.origin
              { allowed := true, selectedAccountId := some account.id,
                chainOverride := some Chain.sol,
                connectedAt := ctx.now, lastUsed := ctx.now } }
        (some st2, .ok (.str account.address))
      | none => (none, .ok (.str account.address))
    | _ => (stateOpt, .error ⟨-32603, "Internal error"⟩)
  else if pending.method = "personal_sign" ∨ pending.method = "eth_sign" then
    match pending.params with
    | .signMsgParams msg account =>
      match handleApprovedSignMessage ctx s stateOpt msg account.id with
      | .ok sig => (stateOpt, .ok (.str sig))
      | .error m => (stateOpt, .error ⟨-32603, m⟩)
    | _ => (stateOpt, .error ⟨-32603, "Internal error"⟩)
  else if pending.method = "eth_signTypedData_v3"
       ∨ pending.method = "eth_signTypedData_v4" then
    match pending.params with
    | .signTypedParams typedData account _ =>
      match handleApprovedSignTypedData ctx s stateOpt typedData account.id with
      | .ok sig => (stateOpt, .ok (.str sig))
      | .error m => (stateOpt, .error ⟨-32603, m⟩)
    | _ => (stateOpt, .error ⟨-32603, "Internal error"⟩)
  else if pending.method = "eth_sendTransaction" then
    match pending.params with
    | .sendTxParams transaction txChainId account =>
      match handleApprovedTransaction ctx s stateOpt transaction txChainId
          account.id 1 with
      | .ok hash => (stateOpt, .ok (.str hash))
      | .error m => (stateOpt, .error ⟨-32603, m⟩)
    | _ => (stateOpt, .error ⟨-32603, "Internal error"⟩)
  else if pending.method = "solana_signAndSendTransaction" then
    (stateOpt, .ok .solPlaceholderSig)
  else if pending.method = "solana_signMessage" then
    (stateOpt, .ok .solPlaceholderSig)
  else
    (stateOpt, .ok (.passthrough respResult))

/-- The approved dispatch together with the final
`pending.resolve(finalResult)` / `pending.reject(...)` call. -/
def dispatchApproved {K B P : Type} (ctx : EngineCtx K B P) (s : Session)
    (stateOpt : Option WalletState) (pending : PendingEntry)
    (respResult : Option String) : Option WalletState × Outcome :=
  match dispatchApprovedCore ctx s stateOpt pending respResult with
  | (st2, .ok v) => (st2, .resolved pending.id v)
  | (st2, .error e) => (st2, .rejected pending.id e)

/-- Accumulating decimal parse over characters; `none` on the first
non-digit. -/
def decDigitsAux : List Char → Nat → Option Nat
  | [], acc => some acc
  | c :: cs, acc =>
    if c.isDigit then decDigitsAux cs (acc * 10 + (c.toNat - 48)) else none

/-- Models the `Number(s)` coercion applied to string request ids.
`Number` also parses floats, hex, surrounding whitespace, and a signed
plus; ids produced by the inpage provider are decimal integers or
arbitrary non-numeric strings, on which this model agrees
(`Number("") = 0` included). -/
def jsNumberCoerce (st : String) : Option Int :=
  match st.data with
  | [] => some 0
  | '-' :: rest =>
    match rest with
    | [] => none
    | _ => (decDigitsAux rest 0).map fun n => -(n : Int)
  | l => (decDigitsAux l 0).map fun n => (n : Int)

/-- The `APPROVAL_RESPONSE` lookup: direct hit first, then the
number-coerced form of a numeric-looking string id, then the
string-coerced form of a number id. -/
def lookupPending (m : PendingMap) (rid : RequestId) : Option PendingEntry :=
  match alookup m rid with
  | some p => some p
  | none =>
    match rid with
    | .str st =>
      match jsNumberCoerce st with
      | some n => alookup m (.num n)
      | none => none
    | .num n => alookup m (.str (toString n))

/-- Result of processing one `APPROVAL_RESPONSE` message: the new
pending map, the possibly-updated persisted state, the
`resolve`/`reject` calls made, and the `sendResponse` ok flag. -/
structure ApprovalResult where
  map : PendingMap
  state : Option WalletState
  outcomes : List Outcome
  handled : Bool
deriving DecidableEq, Repr

/-- The `APPROVAL_RESPONSE` branch of the message listener: look the id
up (with coercion); an unknown id only answers `Request not found`; a
found entry is deleted from the map under its stored key before the
approved dispatch or the rejection runs. -/
def processApprovalResponse {K B P : Type} (ctx : EngineCtx K B P)
    (s : Session) (stateOpt : Option WalletState) (m : PendingMap)
    (requestId : RequestId) (approved : Bool) (respResult : Option String)
    (respError : Option JsErr) : ApprovalResult :=
  match lookupPending m requestId with
  | none => { map := m, state := stateOpt, outcomes := [], handled := false }
  | some pending =>
    let m2 := aerase m pending.id
    if approved then
      match dispatchApproved ctx s stateOpt pending respResult with
      | (st2, outcome) =>
        { map := m2, state := st2, outcomes := [outcome], handled := true }
    else
      { map := m2, state := stateOpt,
        outcomes := [.rejected pending.id (respError.getD userRejectedErr)],
        handled := true }

/-- The 5-minute `setTimeout` callback armed next to every approval
`PendingRequest` (`handleEthRequestAccounts`, `handlePersonalSign`,
`handleSignTypedData`, `handleSendTransaction`, ...): if the id is still
pending, delete it and reject with the 4001 user-rejected error. -/
def approvalTimeoutFire (m : PendingMap) (id : RequestId) :
    PendingMap × List Outcome :=
  if (alookup m id).isSome then
    (aerase m id, [.rejected id userRejectedErr])
  else
    (m, [])

/-- The timeout callback of the locked-wallet wait inside
`handleEthRequestAccounts`: deletes from both maps and rejects with the
4100 timed-out error. -/
def unlockWaitTimeoutFire (m : PendingMap)
    (mu : List (RequestId × UnlockQueued)) (id : RequestId) :
    PendingMap × List (RequestId × UnlockQueued) × List Outcome :=
  if (alookup m id).isSome then
    (aerase m id, aerase mu id, [.rejected id requestTimedOutErr])
  else
    (m, mu, [])

/-- Combined in-memory state of the background service worker: the
keystore session singleton, the two request maps, and the log of
`resolve`/`reject` calls already delivered to callers. -/
structure World where
  session : Session
  pending : PendingMap
  pendingUnlock : List (RequestId × UnlockQueued)
  outcomes : List Outcome
deriving DecidableEq, Repr

/-- The effect of `lockNow()` on the whole background worker: the
keystore module mutates only the session; no code path notifies
`background.ts`, so the pending maps and the callers see nothing
(the `onSuspend` listener also calls plain `lockNow`). -/
def lockWorld (w : World) : World :=
  { w with session := lockNow w.session }

/-! ## Wallet storage (`keystore.ts`, class `WalletStorage`)

`loadState` validates and migrates a raw untyped value read from
`browser.storage.local`, so this layer works on a JSON-like value type.
JavaScript numbers are modelled as integers (the stored numbers are
`Date.now()` timestamps); object fields read through `getField` return
`none` for an absent property (JS `undefined`). -/

/-- Untyped JSON-like values as read from extension storage. -/
inductive JVal
  | jnull
  | jbool (b : Bool)
  | jnum (n : Int)
  | jstr (s : String)
  | jarr (elems : List JVal)
  | jobj (fields : List (String × JVal))

/-- JS truthiness of a value. -/
def truthy : JVal → Bool
  | .jnull => false
  | .jbool b => b
  | .jnum n => decide (n ≠ 0)
  | .jstr s => decide (s ≠ "")
  | .jarr _ => true
  | .jobj _ => true

/-- Whether `typeof v === "object"` (objects, arrays and `null`). -/
def typeofObject : JVal → Bool
  | .jnull => true
  | .jarr _ => true
  | .jobj _ => true
  | _ => false

/-- Property read `v[name]`; `none` is JS `undefined`. -/
def getField : JVal → String → Option JVal
  | .jobj fields, nm => alookup fields nm
  | _, _ => none

/-- Property read defaulting an absent field to `null` (used where the
distinction between `undefined` and `null` is irrelevant). -/
def getFieldD (v : JVal) (nm : String) : JVal :=
  (getField v nm).getD .jnull

/-- Truthiness of a property (`!v[name]` negated). -/
def truthyField (v : JVal) (nm : String) : Bool :=
  match getField v nm with
  | some w => truthy w
  | none => false

/-- The per-account check of `validateState`:
`!account.id || !account.chain || !account.address` (note: `enc` is not
inspected). -/
def accountFieldsOk (a : JVal) : Bool :=
  truthyField a "id" && truthyField a "chain" && truthyField a "address"

/-- The `state.accounts.forEach` loop of `validateState`, with the index
carried for the error message. -/
def validateAccounts (idx : Nat) : List JVal → Except KeystoreErr Unit
  | [] => .ok ()
  | a :: rest =>
    if accountFieldsOk a = false then
      .error ⟨"Invalid account at index " ++ toString idx, "INVALID_ACCOUNT"⟩
    else
      validateAccounts (idx + 1) rest

/-- `WalletStorage.validateState(state)`: object check, `origins` is a
truthy object, `accounts` is an array, `createdAt` is a positive number,
every account has truthy `id`/`chain`/`address`. -/
def validateState (v : JVal) : Except KeystoreErr Unit :=
  if (truthy v && typeofObject v) = false then
    .error ⟨"Invalid wallet state: not an object", "INVALID_STATE"⟩
  else
    match getField v "origins" with
    | some o =>
      if (truthy o && typeofObject o) = false then
        .error ⟨"Invalid wallet state: missing origins", "INVALID_STATE"⟩
      else
        match getField v "accounts" with
        | some (.jarr accounts) =>
          (match getField v "createdAt" with
           | some (.jnum n) =>
             if n ≤ 0 then
               .error ⟨"Invalid wallet state: invalid createdAt",
                       "INVALID_STATE"⟩
             else
               validateAccounts 0 accounts
           | _ =>
             .error ⟨"Invalid wallet state: invalid createdAt",
                     "INVALID_STATE"⟩)
        | _ =>
          .error ⟨"Invalid wallet state: accounts must be an array",
                  "INVALID_STATE"⟩
    | none =>
      .error ⟨"Invalid wallet state: missing origins", "INVALID_STATE"⟩

/-- `WalletStorage.CURRENT_VERSION`. -/
def currentVersion : String := "1.0.0"

/-- Lexicographic comparison on code points, the JS `<` on strings
(identical to UTF-16 order for the ASCII version tags compared here). -/
def strLtChars : List Char → List Char → Bool
  | [], [] => false
  | [], _ :: _ => true
  | _ :: _, [] => false
  | a :: as, b :: bs =>
    if a.toNat < b.toNat then true
    else if b.toNat < a.toNat then false
    else strLtChars as bs

/-- The JS string comparison `a < b`. -/
def jsStrLt (a b : String) : Bool :=
  strLtChars a.data b.data

/-- The JS comparison `state.version < CURRENT_VERSION`: the version
written by `saveState` is a string and compares lexicographically;
non-string values compare through `NaN` and yield `false`. -/
def versionLt (v : JVal) (cur : String) : Bool :=
  match v with
  | .jstr s => jsStrLt s cur
  | _ => false

/-- JS `x || d` for a possibly-absent number-valued property. -/
def orNow (x : Option JVal) (now : Int) : JVal :=
  match x with
  | some w => if truthy w then w else .jnum now
  | none => .jnum now

/-- One origin entry of `migrateState`: backfills `allowed` to `false`
and the timestamps to `Date.now()`. -/
def migrateOrigin (p : JVal) (now : Int) : JVal :=
  .jobj
    [("allowed",
       match getField p "allowed" with
       | some w => if truthy w then w else .jbool false
       | none => .jbool false),
     ("selectedAccountId", getFieldD p "selectedAccountId"),
     ("chainOverride", getFieldD p "chainOverride"),
     ("connectedAt", orNow (getField p "connectedAt") now),
     ("lastUsed", orNow (getField p "lastUsed") now)]

/-- One account entry of `migrateState`: reads `account.enc.iv` and
friends, so an absent or null `enc` raises a `TypeError` (which the
`loadState` catch later converts). -/
def migrateAccount (a : JVal) (now : Int) : Except KeystoreErr JVal :=
  match getField a "enc" with
  | none =>
    .error ⟨"Cannot read properties of undefined", "TYPE_ERROR"⟩
  | some .jnull =>
    .error ⟨"Cannot read properties of null", "TYPE_ERROR"⟩
  | some enc =>
    .ok (.jobj
      [("id", getFieldD a "id"),
       ("name", getFieldD a "name"),
       ("chain", getFieldD a "chain"),
       ("pubkey", getFieldD a "pubkey"),
       ("address", getFieldD a "address"),
       ("path", getFieldD a "path"),
       ("enc", .jobj [("iv", getFieldD enc "iv"),
                      ("salt", getFieldD enc "salt"),
                      ("ct", getFieldD enc "ct")]),
       ("createdAt", orNow (getField a "createdAt") now)])

/-- The `migrateState` account loop. -/
def migrateAccounts (xs : List JVal) (now : Int) :
    Except KeystoreErr (List JVal) :=
  match xs with
  | [] => .ok []
  | a :: rest =>
    match migrateAccount a now with
    | .error e => .error e
    | .ok a2 =>
      match migrateAccounts rest now with
      | .error e => .error e
      | .ok rest2 => .ok (a2 :: rest2)

/-- `WalletStorage.migrateState(oldState)`. -/
def migrateState (v : JVal) (now : Int) : Except KeystoreErr JVal :=
  let originsRaw :=
    match getField v "origins" with
    | some o => if truthy o then o else .jobj []
    | none => .jobj []
  let origins2 :=
    match originsRaw with
    | .jobj fields => JVal.jobj (fields.map fun kv =>
        (kv.1, migrateOrigin kv.2 now))
    | _ => originsRaw
  let accountsRaw :=
    match getField v "accounts" with
    | some a => if truthy a then a else .jarr []
    | none => .jarr []
  match accountsRaw with
  | .jarr xs =>
    (match migrateAccounts xs now with
     | .error e => .error e
     | .ok xs2 =>
       .ok (.jobj
         [("origins", origins2),
          ("accounts", .jarr xs2),
          ("mnemonic", getFieldD v "mnemonic"),
          ("createdAt", orNow (getField v "createdAt") now),
          ("version", .jstr currentVersion)]))
  | _ => .error ⟨"accounts is not an array", "TYPE_ERROR"⟩

/-- `WalletStorage.validateAndMigrateState(rawState)`: validate, then
migrate when `version` is falsy or smaller than the current version. -/
def validateAndMigrateState (v : JVal) (now : Int) :
    Except KeystoreErr JVal :=
  match validateState v with
  | .error e => .error e
  | .ok _ =>
    if truthyField v "version" = false
        ∨ versionLt (getFieldD v "version") currentVersion then
      migrateState v now
    else
      .ok v

/-- `WalletStorage.loadState()`: a falsy raw value yields `null`; any
validation or migration error is caught and re-raised as
`STORAGE_LOAD_FAILED`.  `raw` is what `storage.local.get` returned. -/
def loadState (raw : Option JVal) (now : Int) :
    Except KeystoreErr (Option JVal) :=
  match raw with
  | none => .ok none
  | some v =>
    if truthy v = false then .ok none
    else
      match validateAndMigrateState v now with
      | .ok st => .ok (some st)
      | .error _ => .error ⟨"Failed to load wallet data",
                            "STORAGE_LOAD_FAILED"⟩

/-! ## Concrete instances used by witnesses and counterexamples -/

/-- Boolean prefix test on character lists. -/
def listStartsWith : List Char → List Char → Bool
  | [], _ => true
  | _ :: _, [] => false
  | a :: as, b :: bs => decide (a = b) && listStartsWith as bs

/-- A concrete instantiation of the platform primitives: keys are
(pin-bytes, salt) pairs, byte buffers are strings, base64 and utf8 are
the identity, AES-GCM is a tagged pairing whose decryption checks the
key and iv, JSON plaintexts are natural numbers. -/
def toyPrims : CryptoPrims (String × String) String Nat where
  utf8enc := id
  utf8dec := id
  blen s := s.length
  b64encode := id
  b64decode s := .ok s
  deriveRaw pinBytes salt := (pinBytes, salt)
  aesEnc k iv data := k.1 ++ "|" ++ k.2 ++ "|" ++ iv ++ "|" ++ data
  aesDec k iv ct :=
    let tag := k.1 ++ "|" ++ k.2 ++ "|" ++ iv ++ "|"
    if listStartsWith tag.data ct.data then
      some (String.mk (ct.data.drop tag.data.length))
    else none
  stringify n := toString n
  parse s :=
    match s.data with
    | [] => none
    | l => decDigitsAux l 0

/-- Concrete chain adapters for witnesses. -/
def toyAdapters : ChainAdapters where
  signMessage pk msg := "sig:" ++ pk ++ ":" ++ msg
  signTyped pk td := "typedsig:" ++ pk ++ ":" ++ td
  parseTyped td := some td
  hasEvmNetwork _ := true
  sendTx pk _tx _cid := "hash:" ++ pk

/-- Concrete engine context for witnesses. -/
def toyCtx : EngineCtx (String × String) String Nat where
  prims := toyPrims
  adapters := toyAdapters
  privateKeyHex n := toString n
  now := 1000

/-- A 32-byte salt for witnesses. -/
def salt32 : String := "ssssssssssssssssssssssssssssssss"

/-- A 12-byte iv for witnesses. -/
def iv12 : String := "iviviviviviv"

/-- An account blob used in concrete states (contents irrelevant to the
theorems that use it). -/
def sampleEnc : EncBlob := { iv := "i", salt := "s", ct := "c" }

/-- A concrete EVM account. -/
def evmAcct : StoredAccount :=
  { id := "acct-1", name := "Account 1", chain := Chain.evm,
    pubkey := "pub1", address := "0xabc", path := "m/44h/60h/0h/0/0",
    enc := sampleEnc, createdAt := 1 }

/-- A second concrete EVM account. -/
def evmAcct2 : StoredAccount :=
  { id := "acct-2", name := "Account 2", chain := Chain.evm,
    pubkey := "pub2", address := "0xdef", path := "m/44h/60h/0h/0/1",
    enc := sampleEnc, createdAt := 2 }

/-- A concrete Solana account. -/
def solAcct : StoredAccount :=
  { id := "acct-sol", name := "Sol", chain := Chain.sol,
    pubkey := "spub", address := "SolAddr", path := "m/44h/501h/0h",
    enc := sampleEnc, createdAt := 3 }

/-- A concrete wallet state granting `https://dapp.example` the EVM
account. -/
def grantedState : WalletState :=
  { origins := [("https://dapp.example",
      { allowed := true, selectedAccountId := some "acct-1",
        chainOverride := none, connectedAt := 10, lastUsed := 10 })],
    accounts := [evmAcct, evmAcct2],
    mnemonic := none, createdAt := 1, version := "1.0.0" }

/-- A concrete unlocked session. -/
def unlockedSession : Session :=
  { unlocked := true, pin := some "1234",
    lockTimer := some 300000, unlockTime := some 50 }

/-- A concrete pending approval entry. -/
def samplePending : PendingEntry :=
  { id := RequestId.num 1, method := "personal_sign",
    origin := "https://dapp.example",
    params := PendingParams.signMsgParams "hello" evmAcct }

/-- A pending entry keyed by the string id `"5"`. -/
def entryStr5 : PendingEntry :=
  { id := RequestId.str "5", method := "personal_sign",
    origin := "https://one.example",
    params := PendingParams.signMsgParams "m1" evmAcct }

/-- A pending entry keyed by the number id `5`. -/
def entryNum5 : PendingEntry :=
  { id := RequestId.num 5, method := "personal_sign",
    origin := "https://two.example",
    params := PendingParams.signMsgParams "m2" evmAcct2 }

/-- A one-entry pending map used by witnesses. -/
def pendingMapW : PendingMap := [(RequestId.num 1, samplePending)]

/-- A raw stored account value with `id`, `chain`, `address` but no
`enc` property. -/
def jAccNoEnc : JVal :=
  .jobj [("id", .jstr "a1"), ("chain", .jstr "evm"),
         ("address", .jstr "0xabc")]

/-- A raw stored state whose single account lacks `enc`, already tagged
with the current version (so no migration runs). -/
def jStateNoEnc : JVal :=
  .jobj [("origins", .jobj []),
         ("accounts", .jarr [jAccNoEnc]),
         ("createdAt", .jnum 5),
         ("version", .jstr "1.0.0")]

/-! ## Association-list lemmas -/

theorem alookup_mem {K V : Type} [DecidableEq K] :
    ∀ {m : List (K × V)} {k : K} {v : V}, alookup m k = some v → (k, v) ∈ m := by
  intro m
  induction m with
  | nil => intro k v h; simp [alookup] at h
  | cons kv rest ih =>
    intro k v h
    rw [alookup] at h
    split at h
    · next heq =>
      cases h
      exact List.mem_cons.mpr (Or.inl (by cases kv; simp_all))
    · exact List.mem_cons.mpr (Or.inr (ih h))

theorem mem_aerase {K V : Type} [DecidableEq K] {m : List (K × V)}
    {kv : K × V} {key : K} :
    kv ∈ aerase m key ↔ kv ∈ m ∧ kv.1 ≠ key := by
  simp [aerase, List.mem_filter]

theorem alookup_aerase_self {K V : Type} [DecidableEq K]
    (m : List (K × V)) (key : K) : alookup (aerase m key) key = none := by
  induction m with
  | nil => rfl
  | cons kv rest ih =>
    by_cases h : kv.1 = key
    · simpa [aerase, List.filter, h] using ih
    · simpa [aerase, List.filter, h, alookup] using ih

theorem alookup_append_right {K V : Type} [DecidableEq K]
    (l1 l2 : List (K × V)) (key : K) (h : alookup l1 key = none) :
    alookup (l1 ++ l2) key = alookup l2 key := by
  induction l1 with
  | nil => rfl
  | cons kv rest ih =>
    rw [alookup] at h
    rw [List.cons_append, alookup]
    split at h
    · exact absurd h (by simp)
    · next hne => rw [if_neg hne]; exact ih h

theorem alookup_ainsert_self {K V : Type} [DecidableEq K]
    (m : List (K × V)) (key : K) (v : V) :
    alookup (ainsert m key v) key = some v := by
  rw [ainsert, alookup_append_right _ _ _ (alookup_aerase_self m key)]
  simp [alookup]

theorem length_aerase_of_found {K V : Type} [DecidableEq K] :
    ∀ (m : List (K × V)) (key : K),
      (alookup m key).isSome = true → (m.map Prod.fst).Nodup →
      (aerase m key).length + 1 = m.length := by
  intro m
  induction m with
  | nil => intro key h _; simp [alookup] at h
  | cons kv rest ih =>
    intro key h hnd
    rw [List.map_cons, List.nodup_cons] at hnd
    by_cases hk : kv.1 = key
    · have hrest : aerase rest key = rest := by
        apply List.filter_eq_self.mpr
        intro a ha
        have hmem : a.1 ∈ rest.map Prod.fst := List.mem_map_of_mem _ ha
        have hne : a.1 ≠ kv.1 := fun e => hnd.1 (e ▸ hmem)
        have hne2 : a.1 ≠ key := by rw [← hk]; exact hne
        simpa using hne2
      rw [aerase] at hrest
      rw [aerase, List.filter_cons, if_neg (by simp [hk]), hrest,
        List.length_cons]
    · rw [alookup, if_neg hk] at h
      rw [aerase, List.filter_cons, if_pos (by simp [hk]), List.length_cons,
        List.length_cons]
      have hih := ih key h hnd.2
      rw [aerase] at hih
      omega

theorem lookupPending_mem {m : PendingMap} {rid : RequestId}
    {p : PendingEntry} (h : lookupPending m rid = some p) :
    ∃ k, (k, p) ∈ m := by
  unfold lookupPending at h
  split at h
  · next heq => cases h; exact ⟨rid, alookup_mem heq⟩
  · split at h
    · split at h
      · exact ⟨_, alookup_mem h⟩
      · cases h
    · exact ⟨_, alookup_mem h⟩

/-! ## Claim C1: lock() and outstanding PendingRequests -/

/-- C1 counterexample: the claim states that `lock()` synchronously
rejects every currently outstanding PendingRequest.  In the source,
`lockNow` only mutates the `SessionManager` fields; no code path
touches `pendingRequests` or calls any stored `reject`.  At a world
with one outstanding request, locking emits no rejection for it. -/
theorem lockNow_rejects_pending_cex :
    ¬ (∀ w : World, ∀ kv ∈ w.pending,
        ∃ e, Outcome.rejected kv.1 e ∈ (lockWorld w).outcomes) := by
  intro h
  rcases h { session := unlockedSession, pending := pendingMapW,
             pendingUnlock := [], outcomes := [] }
      (RequestId.num 1, samplePending) (by simp [pendingMapW])
    with ⟨e, he⟩
  simp [lockWorld, lockNow] at he

/-- C1 (amended): `lockNow` wipes the in-memory pin, cancels the
auto-lock timer and transitions the session to Locked, but it does not
reject (or otherwise touch) any outstanding PendingRequest: the pending
maps and the log of delivered resolutions are unchanged, so outstanding
requests stay pending until their own five-minute timeouts fire. -/
theorem lockNow_leaves_pending_unrejected (w : World) :
    (lockWorld w).session.unlocked = false
    ∧ (lockWorld w).session.pin = none
    ∧ (lockWorld w).session.lockTimer = none
    ∧ (lockWorld w).pending = w.pending
    ∧ (lockWorld w).pendingUnlock = w.pendingUnlock
    ∧ (lockWorld w).outcomes = w.outcomes := by
  simp [lockWorld, lockNow]

/-! ## Claim C2: getConnectedAccount and the lock state -/

/-- C2 counterexample: the claim states that `getConnectedAccount`
returns nothing whenever the session is Locked.  The source function
never consults the session: with the session freshly constructed (hence
Locked), a granted origin still gets its account. -/
theorem getConnectedAccount_locked_cex :
    ¬ (∀ (s : Session) (stateOpt : Option WalletState) (origin : String),
        isUnlocked s = false → getConnectedAccount stateOpt origin = none) := by
  intro h
  have hc := h Session.initial (some grantedState) "https://dapp.example" rfl
  exact absurd hc (by decide)

/-- C2 (amended): `getConnectedAccount(origin)` returns an account iff
the loaded state grants the origin (`allowed` with a truthy
`selectedAccountId` matching an account on chain evm) — independently of
the session state, which the function never reads; consequently an
`eth_accounts` query from a granted origin yields the address even while
the wallet is Locked. -/
theorem getConnectedAccount_ignores_lock (stateOpt : Option WalletState)
    (origin : String) (acc : StoredAccount) :
    getConnectedAccount stateOpt origin = some acc ↔
      ∃ st perm sel,
        stateOpt = some st
        ∧ alookup st.origins origin = some perm
        ∧ perm.allowed = true
        ∧ perm.selectedAccountId = some sel
        ∧ sel ≠ ""
        ∧ st.accounts.find? (fun a =>
            decide (a.id = sel) && decide (a.chain = Chain.evm)) = some acc := by
  constructor
  · intro h
    unfold getConnectedAccount at h
    split at h
    · cases h
    · next st =>
      split at h
      · cases h
      · next perm hperm =>
        split at h
        · cases h
        · next hallow =>
          split at h
          · cases h
          · next sel hsel =>
            split at h
            · cases h
            · next hne =>
              exact ⟨st, perm, sel, rfl, hperm,
                by revert hallow; cases perm.allowed <;> simp,
                hsel, hne, h⟩
  · rintro ⟨st, perm, sel, rfl, hperm, hallow, hsel, hne, hfind⟩
    simp [getConnectedAccount, hperm, hallow, hsel, hne, hfind]

/-! ## Claim C9: unlock without a stored mnemonic canary -/

/-- C9: when the stored state is absent, or present without an encrypted
mnemonic, `unlock(pin, ttl)` performs no canary decryption and succeeds
for every pin of length at least 4: the session transitions to Unlocked
with the pin held in memory and the auto-lock timer armed, with no PIN
validation of any kind. -/
theorem unlock_without_canary {K B P : Type} (pr : CryptoPrims K B P)
    (s : Session) (stateOpt : Option WalletState) (pin : String)
    (ttlMs now : Int) (hlen : 4 ≤ pin.length)
    (hmn : stateOpt = none ∨ ∃ st, stateOpt = some st ∧ st.mnemonic = none) :
    unlock pr s (.ok stateOpt) pin ttlMs now =
      ({ unlocked := true, pin := some pin, lockTimer := some ttlMs,
         unlockTime := some now }, none) := by
  have hne : pin ≠ "" := by
    intro h
    rw [h] at hlen
    simp [String.length] at hlen
  have hnotlt : ¬ (pin.length < 4) := by omega
  unfold unlock
  rw [if_neg hne, if_neg hnotlt]
  rcases hmn with rfl | ⟨st, rfl, hm⟩
  · simp
  · simp [hm]

/-- C9 witness: a fresh session and empty storage unlock with any
four-character pin. -/
theorem unlock_without_canary_witness :
    4 ≤ ("1234" : String).length
    ∧ unlock toyPrims Session.initial (.ok none) "1234" 60000 5 =
        ({ unlocked := true, pin := some "1234", lockTimer := some 60000,
           unlockTime := some 5 }, none) :=
  ⟨by decide,
   unlock_without_canary toyPrims Session.initial none "1234" 60000 5
     (by decide) (Or.inl rfl)⟩

/-! ## Claim C10: handleApprovedConnection grants the first EVM account -/

/-- C10: for an approved connection, `handleApprovedConnection` grants
the requesting origin the first account of chain evm in the vault list
(setting `selectedAccountId` to that account's id), returning that
account's address; the function receives only the origin and the request
id, so any account selection carried by the request is ignored by
construction; with no EVM account it throws, and with no state it throws
`Wallet not initialized`. -/
theorem approved_connection_grants_first_evm (st : WalletState)
    (origin : String) (now : Int) :
    (handleApprovedConnection none origin now = .error "Wallet not initialized")
    ∧ (st.accounts.find? (fun a => decide (a.chain = Chain.evm)) = none →
        handleApprovedConnection (some st) origin now =
          .error "No EVM account found")
    ∧ (∀ acc, st.accounts.find? (fun a => decide (a.chain = Chain.evm)) = some acc →
        ∃ st2, handleApprovedConnection (some st) origin now = .ok (st2, [acc.address])
          ∧ alookup st2.origins origin = some
              { allowed := true, selectedAccountId := some acc.id,
                chainOverride := none, connectedAt := now, lastUsed := now }
          ∧ st2.accounts = st.accounts
          ∧ st2.mnemonic = st.mnemonic) := by
  refine ⟨rfl, ?_, ?_⟩
  · intro hfind
    simp [handleApprovedConnection, hfind]
  · intro acc hfind
    simp only [handleApprovedConnection, hfind]
    refine ⟨_, rfl, ?_, rfl, rfl⟩
    exact alookup_ainsert_self _ _ _

/-- C10 witness: on the concrete granted state, a new origin gets the
first EVM account `acct-1` with address `0xabc`. -/
theorem approved_connection_grants_first_evm_witness :
    grantedState.accounts.find? (fun a => decide (a.chain = Chain.evm)) =
      some evmAcct
    ∧ ∃ st2, handleApprovedConnection (some grantedState)
          "https://new.example" 77 = .ok (st2, [evmAcct.address])
        ∧ alookup st2.origins "https://new.example" = some
            { allowed := true, selectedAccountId := some evmAcct.id,
              chainOverride := none, connectedAt := 77, lastUsed := 77 }
        ∧ st2.accounts = grantedState.accounts
        ∧ st2.mnemonic = grantedState.mnemonic :=
  ⟨by decide,
   (approved_connection_grants_first_evm grantedState "https://new.example"
     77).2.2 evmAcct (by decide)⟩

/-! ## Claim C7: the approval timeout ceiling -/

/-- C7 counterexample: the claim states that a timed-out PendingRequest
is rejected with the `REQUEST_TIMEOUT` error.  The timeout callback
armed next to every approval PendingRequest rejects with the standard
user-rejection error (`4001`, `User rejected the request`), which the
program distinguishes from its own timed-out error (`4100`,
`Request timed out. Please try again.`) used only on the pending-unlock
wait: at a map holding one pending request, the fired timeout emits the
4001 user-rejection, not a timeout-class error. -/
theorem timeout_error_code_cex :
    ¬ (∀ (m : PendingMap) (id : RequestId), (alookup m id).isSome = true →
        (approvalTimeoutFire m id).2 =
          [Outcome.rejected id requestTimedOutErr]) := by
  intro h
  have hc := h pendingMapW (RequestId.num 1) (by decide)
  exact absurd hc (by decide)

/-- C7 (amended): if the timeout fires while the id is still pending,
the entry is removed (the map returns to its pre-request length) and the
request is rejected — but with the user-rejection error `4001` on the
approval paths, and with the 4100 timed-out error on the pending-unlock
wait of `handleEthRequestAccounts`; if the id is no longer pending the
callback is a no-op. -/
theorem timeout_reject_remove (m : PendingMap)
    (mu : List (RequestId × UnlockQueued)) (id : RequestId)
    (hmem : (alookup m id).isSome = true)
    (hnd : (m.map Prod.fst).Nodup) :
    approvalTimeoutFire m id = (aerase m id, [Outcome.rejected id userRejectedErr])
    ∧ (aerase m id).length + 1 = m.length
    ∧ unlockWaitTimeoutFire m mu id =
        (aerase m id, aerase mu id, [Outcome.rejected id requestTimedOutErr])
    ∧ (∀ m2 : PendingMap, alookup m2 id = none →
        approvalTimeoutFire m2 id = (m2, [])) := by
  refine ⟨?_, length_aerase_of_found m id hmem hnd, ?_, ?_⟩
  · simp [approvalTimeoutFire, hmem]
  · simp [unlockWaitTimeoutFire, hmem]
  · intro m2 h2
    simp [approvalTimeoutFire, h2]

/-- C7 witness: the concrete one-entry map is emptied and its caller
rejected when the timeout fires. -/
theorem timeout_reject_remove_witness :
    (alookup pendingMapW (RequestId.num 1)).isSome = true
    ∧ (pendingMapW.map Prod.fst).Nodup
    ∧ approvalTimeoutFire pendingMapW (RequestId.num 1) =
        (aerase pendingMapW (RequestId.num 1),
         [Outcome.rejected (RequestId.num 1) userRejectedErr])
    ∧ (aerase pendingMapW (RequestId.num 1)).length + 1 = pendingMapW.length :=
  ⟨by decide, by decide,
   (timeout_reject_remove pendingMapW [] (RequestId.num 1) (by decide)
     (by decide)).1,
   (timeout_reject_remove pendingMapW [] (RequestId.num 1) (by decide)
     (by decide)).2.1⟩

/-! ## Claim C8: loadState schema validation -/

theorem validateAccounts_ok_iff (idx : Nat) (l : List JVal) :
    validateAccounts idx l = .ok () ↔ ∀ a ∈ l, accountFieldsOk a = true := by
  induction l generalizing idx with
  | nil => simp [validateAccounts]
  | cons a rest ih =>
    rw [validateAccounts]
    cases hA : accountFieldsOk a with
    | false => simp [hA]
    | true => simp [hA, ih (idx + 1)]

/-- C8 counterexample: the claim states that `load()` checks that every
account has `id`, `chain`, `address` and `enc`.  The source
`validateState` never inspects `enc`: a stored state whose only account
lacks the `enc` blob entirely is accepted and returned by `loadState`
unchanged (its version tag is current, so no migration runs either). -/
theorem loadState_missing_enc_cex :
    ¬ (∀ (v : JVal) (now : Int) (st : JVal),
        loadState (some v) now = .ok (some st) →
        ∀ accounts, getField st "accounts" = some (.jarr accounts) →
        ∀ a ∈ accounts, truthyField a "enc" = true) := by
  intro h
  have hload : loadState (some jStateNoEnc) 99 = .ok (some jStateNoEnc) := rfl
  have hc := h jStateNoEnc 99 jStateNoEnc hload [jAccNoEnc] rfl jAccNoEnc
    (List.mem_singleton.mpr rfl)
  rw [show truthyField jAccNoEnc "enc" = false from rfl] at hc
  cases hc

/-- C8 (amended): `loadState` validates the schema before returning —
the value and its `origins` are truthy objects, `accounts` is an array,
`createdAt` is a positive number, and every account has truthy `id`,
`chain` and `address` (`enc` is not checked) — and any raw value failing
those checks raises a `KeystoreError` with code `STORAGE_LOAD_FAILED`
(wrapping the inner `INVALID_STATE`/`INVALID_ACCOUNT` error) rather than
being returned. -/
theorem loadState_schema_validation (v : JVal) (now : Int)
    (hv : truthy v = true) :
    ((∃ e, validateState v = .error e) →
       loadState (some v) now =
         .error ⟨"Failed to load wallet data", "STORAGE_LOAD_FAILED"⟩)
    ∧ (validateState v = .ok () ↔
        ((truthy v && typeofObject v) = true
         ∧ ∃ o, getField v "origins" = some o
             ∧ (truthy o && typeofObject o) = true
         ∧ ∃ accounts, getField v "accounts" = some (.jarr accounts)
         ∧ (∃ n, getField v "createdAt" = some (.jnum n) ∧ 0 < n)
         ∧ ∀ a ∈ accounts, accountFieldsOk a = true)) := by
  constructor
  · rintro ⟨e, he⟩
    simp [loadState, hv, validateAndMigrateState, he]
  · constructor
    · intro h
      unfold validateState at h
      split at h
      · cases h
      · next hobj =>
        refine ⟨by revert hobj; cases truthy v && typeofObject v <;> simp, ?_⟩
        split at h
        · next o ho =>
          split at h
          · cases h
          · next hoo =>
            refine ⟨o, ho,
              by revert hoo; cases truthy o && typeofObject o <;> simp, ?_⟩
            split at h
            · next accounts hacc =>
              split at h
              · next n hn =>
                split at h
                · cases h
                · next hle =>
                  exact ⟨accounts, hacc, ⟨n, hn, by omega⟩,
                    (validateAccounts_ok_iff 0 accounts).mp h⟩
              · cases h
            · cases h
        · cases h
    · rintro ⟨hobj, o, ho, hoo, accounts, hacc, ⟨n, hn, hpos⟩, hall⟩
      have hval := (validateAccounts_ok_iff 0 accounts).mpr hall
      have hle : ¬ (n ≤ 0) := by omega
      simp [validateState, hobj, ho, hoo, hacc, hn, hle, hval]

/-- C8 witness: a truthy object with no `origins` fails validation and
`loadState` raises `STORAGE_LOAD_FAILED`; the well-formed concrete state
satisfies exactly the listed checks. -/
theorem loadState_schema_validation_witness :
    truthy (.jobj [("createdAt", .jnum 3)]) = true
    ∧ (∃ e, validateState (.jobj [("createdAt", .jnum 3)]) = .error e)
    ∧ loadState (some (.jobj [("createdAt", .jnum 3)])) 99 =
        .error ⟨"Failed to load wallet data", "STORAGE_LOAD_FAILED"⟩ :=
  ⟨rfl, ⟨⟨"Invalid wallet state: missing origins", "INVALID_STATE"⟩, rfl⟩,
   (loadState_schema_validation (.jobj [("createdAt", .jnum 3)]) 99 rfl).1
     ⟨⟨"Invalid wallet state: missing origins", "INVALID_STATE"⟩, rfl⟩⟩

/-! ## Claim C6: approval-response lookup and single resolution -/

theorem dispatchApproved_oid {K B P : Type} (ctx : EngineCtx K B P)
    (s : Session) (stateOpt : Option WalletState) (pending : PendingEntry)
    (res : Option String) :
    ((dispatchApproved ctx s stateOpt pending res).2).oid = pending.id := by
  unfold dispatchApproved
  rcases h : dispatchApprovedCore ctx s stateOpt pending res with ⟨stx, e⟩
  cases e <;> simp [Outcome.oid]

theorem processApprovalResponse_found {K B P : Type} (ctx : EngineCtx K B P)
    (s : Session) (stateOpt : Option WalletState) (m : PendingMap)
    (rid : RequestId) (approved : Bool) (res : Option String)
    (err : Option JsErr) {p : PendingEntry}
    (hp : lookupPending m rid = some p) :
    (processApprovalResponse ctx s stateOpt m rid approved res err).map =
      aerase m p.id
    ∧ ∀ o ∈ (processApprovalResponse ctx s stateOpt m rid approved res
        err).outcomes, o.oid = p.id := by
  unfold processApprovalResponse
  rw [hp]
  cases approved with
  | false => simp [Outcome.oid]
  | true =>
    rcases hd : dispatchApproved ctx s stateOpt p res with ⟨stx, oc⟩
    have hoid : oc.oid = p.id := by
      have ho := dispatchApproved_oid ctx s stateOpt p res
      rw [hd] at ho
      exact ho
    simp [hd, hoid]

/-- C6 counterexample: the claim states that of two approval responses
bearing the same id only the first is honored and the second is a
no-op.  Because the engine also tries the number-coerced form of a
numeric string id, a second response with id `"5"` is not a no-op when
the map holds entries under both the string key `"5"` and the number
key `5`: the second response resolves the other entry. -/
theorem approval_duplicate_id_cex :
    ¬ (∀ (K B P : Type) (ctx : EngineCtx K B P) (s : Session)
         (stateOpt : Option WalletState) (m : PendingMap) (rid : RequestId)
         (approved1 approved2 : Bool) (res1 res2 : Option String)
         (err1 err2 : Option JsErr),
        (processApprovalResponse ctx s
          (processApprovalResponse ctx s stateOpt m rid approved1 res1
            err1).state
          (processApprovalResponse ctx s stateOpt m rid approved1 res1
            err1).map
          rid approved2 res2 err2).outcomes = []) := by
  intro h
  have hc := h (String × String) String Nat toyCtx Session.initial none
    [(RequestId.str "5", entryStr5), (RequestId.num 5, entryNum5)]
    (RequestId.str "5") false false none none none none
  exact absurd hc (by decide)

/-- C6 (amended): an approval response whose id is not present in the
map under its canonical or coerced form is not acted on at all; a found
entry is removed from the map exactly once, under its stored key, before
its single resolve/reject runs, and a second response with the same id
can never resolve or reject that entry again — it is a no-op unless a
distinct entry (with a different id) is reachable under a coerced form
of the id, in which case it acts on that distinct entry only. -/
theorem approval_single_resolution {K B P : Type} (ctx : EngineCtx K B P)
    (s s2 : Session) (st1 st2 : Option WalletState) (m : PendingMap)
    (rid : RequestId) (approved1 approved2 : Bool) (res1 res2 : Option String)
    (err1 err2 : Option JsErr)
    (hkeys : ∀ kv ∈ m, kv.1 = kv.2.id) :
    (lookupPending m rid = none →
       processApprovalResponse ctx s st1 m rid approved1 res1 err1 =
         { map := m, state := st1, outcomes := [], handled := false })
    ∧ (∀ p, lookupPending m rid = some p →
        (processApprovalResponse ctx s st1 m rid approved1 res1 err1).map =
          aerase m p.id
        ∧ (∀ o ∈ (processApprovalResponse ctx s st1 m rid approved1 res1
            err1).outcomes, o.oid = p.id)
        ∧ (∀ o ∈ (processApprovalResponse ctx s2 st2 (aerase m p.id) rid
            approved2 res2 err2).outcomes, o.oid ≠ p.id)) := by
  constructor
  · intro h
    simp [processApprovalResponse, h]
  · intro p hp
    refine ⟨(processApprovalResponse_found ctx s st1 m rid approved1 res1
        err1 hp).1,
      (processApprovalResponse_found ctx s st1 m rid approved1 res1
        err1 hp).2, ?_⟩
    intro o ho
    cases hl : lookupPending (aerase m p.id) rid with
    | none =>
      simp [processApprovalResponse, hl] at ho
    | some q =>
      have hoq := (processApprovalResponse_found ctx s2 st2 (aerase m p.id)
        rid approved2 res2 err2 hl).2 o ho
      rcases lookupPending_mem hl with ⟨k, hkq⟩
      have hk2 := mem_aerase.mp hkq
      have hkid : k = q.id := hkeys (k, q) hk2.1
      rw [hoq, ← hkid]
      exact hk2.2

/-- C6 witness: on the concrete one-entry map, the entry is erased under
its stored key by the first response and a second response with the same
id touches nothing with that id. -/
theorem approval_single_resolution_witness :
    (∀ kv ∈ pendingMapW, kv.1 = kv.2.id)
    ∧ lookupPending pendingMapW (RequestId.num 1) = some samplePending
    ∧ (processApprovalResponse toyCtx Session.initial none pendingMapW
         (RequestId.num 1) false none none).map =
        aerase pendingMapW samplePending.id
    ∧ (∀ o ∈ (processApprovalResponse toyCtx Session.initial none
          (aerase pendingMapW samplePending.id) (RequestId.num 1) false none
          none).outcomes, o.oid ≠ samplePending.id) := by
  have h := (approval_single_resolution toyCtx Session.initial Session.initial
    none none pendingMapW (RequestId.num 1) false false none none none none
    (by decide)).2 samplePending (by decide)
  exact ⟨by decide, by decide, h.1, h.2.2⟩

/-! ## Claim C3: locked-state guarding of the approved handlers -/

theorem getSessionPin_locked (s : Session) (hlock : isUnlocked s = false) :
    getSessionPin s =
      .error ⟨"Wallet is locked - please unlock first", "WALLET_LOCKED"⟩ := by
  simp [getSessionPin, requireUnlocked, hlock]

theorem decryptAccount_locked {K B P : Type} (ctx : EngineCtx K B P)
    (s : Session) (acc : StoredAccount) (hlock : isUnlocked s = false) :
    decryptAccount ctx s acc =
      .error ⟨"Wallet is locked - please unlock first", "WALLET_LOCKED"⟩ := by
  simp [decryptAccount, getSessionPin_locked s hlock]

theorem handleApprovedSignMessage_locked {K B P : Type} (ctx : EngineCtx K B P)
    (s : Session) (stateOpt : Option WalletState)
    (message accountId : String) (hlock : isUnlocked s = false) :
    ∃ m2, handleApprovedSignMessage ctx s stateOpt message accountId =
      .error m2 := by
  unfold handleApprovedSignMessage
  split
  · exact ⟨_, rfl⟩
  · split
    · exact ⟨_, rfl⟩
    · rw [decryptAccount_locked ctx s _ hlock]
      exact ⟨_, rfl⟩

theorem handleApprovedSignTypedData_locked {K B P : Type}
    (ctx : EngineCtx K B P) (s : Session) (stateOpt : Option WalletState)
    (typedData accountId : String) (hlock : isUnlocked s = false) :
    ∃ m2, handleApprovedSignTypedData ctx s stateOpt typedData accountId =
      .error m2 := by
  unfold handleApprovedSignTypedData
  split
  · exact ⟨_, rfl⟩
  · split
    · exact ⟨_, rfl⟩
    · rw [decryptAccount_locked ctx s _ hlock]
      exact ⟨_, rfl⟩

theorem handleApprovedTransaction_locked {K B P : Type}
    (ctx : EngineCtx K B P) (s : Session) (stateOpt : Option WalletState)
    (transaction : String) (txChainId : Option Int) (accountId : String)
    (currentChainIdNum : Int) (hlock : isUnlocked s = false) :
    ∃ m2, handleApprovedTransaction ctx s stateOpt transaction txChainId
      accountId currentChainIdNum = .error m2 := by
  unfold handleApprovedTransaction
  split
  · exact ⟨_, rfl⟩
  · split
    · exact ⟨_, rfl⟩
    · rw [decryptAccount_locked ctx s _ hlock]
      exact ⟨_, rfl⟩

theorem dispatchApprovedCore_sign_locked {K B P : Type} (ctx : EngineCtx K B P)
    (s : Session) (stateOpt : Option WalletState) (pending : PendingEntry)
    (res : Option String) (hlock : isUnlocked s = false)
    (hm : pending.method = "personal_sign" ∨ pending.method = "eth_sign"
        ∨ pending.method = "eth_signTypedData_v3"
        ∨ pending.method = "eth_signTypedData_v4"
        ∨ pending.method = "eth_sendTransaction") :
    ∃ e, dispatchApprovedCore ctx s stateOpt pending res =
      (stateOpt, .error e) := by
  unfold dispatchApprovedCore
  rcases hm with h | h | h | h | h
  · rw [h, if_neg (by decide), if_neg (by decide), if_pos (by decide)]
    cases hp : pending.params
    case signMsgParams msg account =>
      obtain ⟨m2, hm2⟩ :=
        handleApprovedSignMessage_locked ctx s stateOpt msg account.id hlock
      exact ⟨⟨-32603, m2⟩, by simp [hm2]⟩
    all_goals exact ⟨_, rfl⟩
  · rw [h, if_neg (by decide), if_neg (by decide), if_pos (by decide)]
    cases hp : pending.params
    case signMsgParams msg account =>
      obtain ⟨m2, hm2⟩ :=
        handleApprovedSignMessage_locked ctx s stateOpt msg account.id hlock
      exact ⟨⟨-32603, m2⟩, by simp [hm2]⟩
    all_goals exact ⟨_, rfl⟩
  · rw [h, if_neg (by decide), if_neg (by decide), if_neg (by decide),
      if_pos (by decide)]
    cases hp : pending.params
    case signTypedParams typedData account method2 =>
      obtain ⟨m2, hm2⟩ :=
        handleApprovedSignTypedData_locked ctx s stateOpt typedData
          account.id hlock
      exact ⟨⟨-32603, m2⟩, by simp [hm2]⟩
    all_goals exact ⟨_, rfl⟩
  · rw [h, if_neg (by decide), if_neg (by decide), if_neg (by decide),
      if_pos (by decide)]
    cases hp : pending.params
    case signTypedParams typedData account method2 =>
      obtain ⟨m2, hm2⟩ :=
        handleApprovedSignTypedData_locked ctx s stateOpt typedData
          account.id hlock
      exact ⟨⟨-32603, m2⟩, by simp [hm2]⟩
    all_goals exact ⟨_, rfl⟩
  · rw [h, if_neg (by decide), if_neg (by decide), if_neg (by decide),
      if_neg (by decide), if_pos (by decide)]
    cases hp : pending.params
    case sendTxParams transaction txChainId account =>
      obtain ⟨m2, hm2⟩ :=
        handleApprovedTransaction_locked ctx s stateOpt transaction txChainId
          account.id 1 hlock
      exact ⟨⟨-32603, m2⟩, by simp [hm2]⟩
    all_goals exact ⟨_, rfl⟩

/-- C3 counterexample: the claim states that no privileged handler
(including the connection grant) executes its vault mutation while the
session is Locked.  The `eth_requestAccounts` arm of the approved
dispatch calls `handleApprovedConnection`, which grants the origin and
saves the vault with no `requireUnlocked` on the path: with a locked
session the persisted state still changes. -/
theorem dispatch_connection_unguarded_cex :
    ¬ (∀ (K B P : Type) (ctx : EngineCtx K B P) (s : Session)
         (stateOpt : Option WalletState) (pending : PendingEntry)
         (res : Option String),
        isUnlocked s = false →
        pending.method = "eth_requestAccounts" →
        (dispatchApproved ctx s stateOpt pending res).1 = stateOpt) := by
  intro h
  have hc := h (String × String) String Nat toyCtx Session.initial
    (some grantedState)
    ({ id := RequestId.num 2, method := "eth_requestAccounts",
       origin := "https://evil.example",
       params := PendingParams.connectParams }) none rfl rfl
  exact absurd hc (by decide)

/-- C3 (amended): the decrypt-and-sign arms of the approved dispatch
(sign message, sign typed data, send transaction) are guarded against a
Locked session — the guard is `requireUnlocked`, reached through
`decryptAccount`/`getSessionPin` — so with the session Locked they
leave the persisted state unchanged and reject the request even when the
response carries approved=true; the connection-grant arm carries no such
guard and executes its vault mutation while Locked. -/
theorem dispatch_sign_guarded_locked {K B P : Type} (ctx : EngineCtx K B P)
    (s : Session) (stateOpt : Option WalletState) (pending : PendingEntry)
    (res : Option String) (hlock : isUnlocked s = false)
    (hm : pending.method = "personal_sign" ∨ pending.method = "eth_sign"
        ∨ pending.method = "eth_signTypedData_v3"
        ∨ pending.method = "eth_signTypedData_v4"
        ∨ pending.method = "eth_sendTransaction") :
    (dispatchApproved ctx s stateOpt pending res).1 = stateOpt
    ∧ ∃ e, (dispatchApproved ctx s stateOpt pending res).2 =
        .rejected pending.id e := by
  obtain ⟨e, he⟩ :=
    dispatchApprovedCore_sign_locked ctx s stateOpt pending res hlock hm
  constructor
  · simp [dispatchApproved, he]
  · exact ⟨e, by simp [dispatchApproved, he]⟩

/-- C3 witness: a locked fresh session rejects an approved
`personal_sign` response and leaves the vault untouched. -/
theorem dispatch_sign_guarded_locked_witness :
    isUnlocked Session.initial = false
    ∧ (dispatchApproved toyCtx Session.initial (some grantedState)
        samplePending none).1 = some grantedState
    ∧ ∃ e, (dispatchApproved toyCtx Session.initial (some grantedState)
        samplePending none).2 = .rejected samplePending.id e := by
  have h := dispatch_sign_guarded_locked toyCtx Session.initial
    (some grantedState) samplePending none rfl (Or.inl rfl)
  exact ⟨rfl, h.1, h.2⟩

/-! ## Claim C4: crypto round-trip and wrong-key failure

The WebCrypto primitive itself is a platform call, so the theorems
assume the instances of its documented contract used at the values
involved: the AES-GCM round-trip (`haes`), the authentication-tag
rejection of a key derived from a different pin (`hauth`), the base64
and utf8 codec round-trips, and the JSON round-trip for the
serialized plaintext. -/

theorem deriveKey_ok_elim {K B P : Type} {pr : CryptoPrims K B P}
    {pin : String} {salt : B} {k : K} (h : deriveKey pr pin salt = .ok k) :
    pin ≠ "" ∧ ¬ (pin.length < 4) ∧ pr.blen salt = 32
    ∧ k = pinKey pr pin salt := by
  unfold deriveKey at h
  split at h
  · cases h
  · next hpin =>
    split at h
    · cases h
    · next hlen =>
      split at h
      · cases h
      · next hsalt =>
        cases h
        exact ⟨hpin, hlen, not_ne_iff.mp hsalt, rfl⟩

theorem deriveKey_ok {K B P : Type} (pr : CryptoPrims K B P) (pin : String)
    (salt : B) (hpin : pin ≠ "") (hlen : ¬ (pin.length < 4))
    (hsalt : pr.blen salt = 32) :
    deriveKey pr pin salt = .ok (pinKey pr pin salt) := by
  unfold deriveKey
  rw [if_neg hpin, if_neg hlen, if_neg (not_ne_iff.mpr hsalt)]
  rfl

theorem encryptJSON_ok_elim {K B P : Type} {pr : CryptoPrims K B P} {x : P}
    {pin : String} {salt iv : B} {eb : EncBlob}
    (henc : encryptJSON pr x pin salt iv = .ok eb) :
    pin ≠ "" ∧ ¬ (pin.length < 4) ∧ pr.blen salt = 32
    ∧ pr.stringify x ≠ ""
    ∧ eb = ⟨pr.b64encode iv, pr.b64encode salt,
        pr.b64encode (gcmBlob pr x pin salt iv)⟩ := by
  by_cases hs : pr.stringify x = ""
  · simp [encryptJSON, hs] at henc
  · simp only [encryptJSON] at henc
    rw [if_neg hs] at henc
    rcases hd : deriveKey pr pin salt with e | key
    · rw [hd] at henc
      simp at henc
    · rw [hd] at henc
      obtain ⟨hpin, hlen, hsalt, hk⟩ := deriveKey_ok_elim hd
      simp only [aesEncrypt] at henc
      rw [if_neg hs] at henc
      simp only [Except.ok.injEq] at henc
      subst hk
      exact ⟨hpin, hlen, hsalt, hs, henc.symm⟩

theorem aesDecrypt_ok {K B P : Type} (pr : CryptoPrims K B P) (key : K)
    (iv ct : B) (ivB64 ctB64 : String) (pt : B)
    (hivne : ivB64 ≠ "") (hctne : ctB64 ≠ "")
    (hbiv : pr.b64decode ivB64 = .ok iv) (hbct : pr.b64decode ctB64 = .ok ct)
    (hivlen : pr.blen iv = 12) (haes : pr.aesDec key iv ct = some pt) :
    aesDecrypt pr ivB64 ctB64 key = .ok (pr.utf8dec pt) := by
  unfold aesDecrypt
  rw [if_neg (by simp [hivne, hctne])]
  simp only [hbiv, hbct]
  rw [if_neg (not_ne_iff.mpr hivlen)]
  simp [haes]

theorem aesDecrypt_auth_fail {K B P : Type} (pr : CryptoPrims K B P)
    (key : K) (iv ct : B) (ivB64 ctB64 : String)
    (hivne : ivB64 ≠ "") (hctne : ctB64 ≠ "")
    (hbiv : pr.b64decode ivB64 = .ok iv) (hbct : pr.b64decode ctB64 = .ok ct)
    (hivlen : pr.blen iv = 12) (haes : pr.aesDec key iv ct = none) :
    aesDecrypt pr ivB64 ctB64 key =
      .error ⟨"Failed to decrypt data - invalid PIN or corrupted data",
              "DECRYPTION_FAILED"⟩ := by
  unfold aesDecrypt
  rw [if_neg (by simp [hivne, hctne])]
  simp only [hbiv, hbct]
  rw [if_neg (not_ne_iff.mpr hivlen)]
  simp [haes]

theorem decryptJSON_encryptJSON {K B P : Type} (pr : CryptoPrims K B P)
    (x : P) (pin : String) (salt iv : B) (eb : EncBlob)
    (henc : encryptJSON pr x pin salt iv = .ok eb)
    (hbsalt : pr.b64decode (pr.b64encode salt) = .ok salt)
    (hbiv : pr.b64decode (pr.b64encode iv) = .ok iv)
    (hbct : pr.b64decode (pr.b64encode (gcmBlob pr x pin salt iv)) =
      .ok (gcmBlob pr x pin salt iv))
    (hivne : pr.b64encode iv ≠ "")
    (hctne : pr.b64encode (gcmBlob pr x pin salt iv) ≠ "")
    (hivlen : pr.blen iv = 12)
    (haes : pr.aesDec (pinKey pr pin salt) iv (gcmBlob pr x pin salt iv) =
      some (pr.utf8enc (pr.stringify x)))
    (hutf : pr.utf8dec (pr.utf8enc (pr.stringify x)) = pr.stringify x)
    (hparse : pr.parse (pr.stringify x) = some x) :
    decryptJSON pr pin eb.iv eb.salt eb.ct = .ok x := by
  obtain ⟨hpin, hlen, hsalt, hs, hebeq⟩ := encryptJSON_ok_elim henc
  subst hebeq
  unfold decryptJSON
  simp only [hbsalt, deriveKey_ok pr pin salt hpin hlen hsalt,
    aesDecrypt_ok pr (pinKey pr pin salt) iv (gcmBlob pr x pin salt iv)
      (pr.b64encode iv) (pr.b64encode (gcmBlob pr x pin salt iv))
      (pr.utf8enc (pr.stringify x)) hivne hctne hbiv hbct hivlen haes,
    hutf, hparse]

theorem decryptJSON_encryptJSON_wrongPin {K B P : Type}
    (pr : CryptoPrims K B P) (x : P) (pin pin2 : String) (salt iv : B)
    (eb : EncBlob)
    (henc : encryptJSON pr x pin salt iv = .ok eb)
    (hpin2 : pin2 ≠ "") (hlen2 : ¬ (pin2.length < 4))
    (hbsalt : pr.b64decode (pr.b64encode salt) = .ok salt)
    (hbiv : pr.b64decode (pr.b64encode iv) = .ok iv)
    (hbct : pr.b64decode (pr.b64encode (gcmBlob pr x pin salt iv)) =
      .ok (gcmBlob pr x pin salt iv))
    (hivne : pr.b64encode iv ≠ "")
    (hctne : pr.b64encode (gcmBlob pr x pin salt iv) ≠ "")
    (hivlen : pr.blen iv = 12)
    (hauth : pr.aesDec (pinKey pr pin2 salt) iv (gcmBlob pr x pin salt iv) =
      none) :
    decryptJSON pr pin2 eb.iv eb.salt eb.ct =
      .error ⟨"Failed to decrypt data - invalid PIN or corrupted data",
              "DECRYPTION_FAILED"⟩ := by
  obtain ⟨hpin, hlen, hsalt, hs, hebeq⟩ := encryptJSON_ok_elim henc
  subst hebeq
  unfold decryptJSON
  simp only [hbsalt, deriveKey_ok pr pin2 salt hpin2 hlen2 hsalt,
    aesDecrypt_auth_fail pr (pinKey pr pin2 salt) iv
      (gcmBlob pr x pin salt iv) (pr.b64encode iv)
      (pr.b64encode (gcmBlob pr x pin salt iv))
      hivne hctne hbiv hbct hivlen hauth]

/-- C4: decrypting `encryptJSON(x, pin)` with the same pin returns `x`,
and decrypting it with any other accepted pin `pin2 ≠ pin` fails
deterministically with the `DECRYPTION_FAILED` crypto error — never a
wrong-but-accepted plaintext.  The hypotheses are the instances, at the
values involved, of the platform contracts the source relies on: base64
and utf8 round-trips, JSON round-trip, AES-GCM round-trip (`haes`), and
the AES-GCM authentication rejection (`hauth`) of the key PBKDF2 derives
from the other pin. -/
theorem crypto_roundtrip_wrong_key {K B P : Type} (pr : CryptoPrims K B P)
    (x : P) (pin pin2 : String) (salt iv : B) (eb : EncBlob)
    (henc : encryptJSON pr x pin salt iv = .ok eb)
    (_hne : pin2 ≠ pin) (hpin2 : pin2 ≠ "") (hlen2 : ¬ (pin2.length < 4))
    (hbsalt : pr.b64decode (pr.b64encode salt) = .ok salt)
    (hbiv : pr.b64decode (pr.b64encode iv) = .ok iv)
    (hbct : pr.b64decode (pr.b64encode (gcmBlob pr x pin salt iv)) =
      .ok (gcmBlob pr x pin salt iv))
    (hivne : pr.b64encode iv ≠ "")
    (hctne : pr.b64encode (gcmBlob pr x pin salt iv) ≠ "")
    (hivlen : pr.blen iv = 12)
    (haes : pr.aesDec (pinKey pr pin salt) iv (gcmBlob pr x pin salt iv) =
      some (pr.utf8enc (pr.stringify x)))
    (hauth : pr.aesDec (pinKey pr pin2 salt) iv (gcmBlob pr x pin salt iv) =
      none)
    (hutf : pr.utf8dec (pr.utf8enc (pr.stringify x)) = pr.stringify x)
    (hparse : pr.parse (pr.stringify x) = some x) :
    decryptJSON pr pin eb.iv eb.salt eb.ct = .ok x
    ∧ decryptJSON pr pin2 eb.iv eb.salt eb.ct =
        .error ⟨"Failed to decrypt data - invalid PIN or corrupted data",
                "DECRYPTION_FAILED"⟩ :=
  ⟨decryptJSON_encryptJSON pr x pin salt iv eb henc hbsalt hbiv hbct hivne
     hctne hivlen haes hutf hparse,
   decryptJSON_encryptJSON_wrongPin pr x pin pin2 salt iv eb henc hpin2
     hlen2 hbsalt hbiv hbct hivne hctne hivlen hauth⟩

/-- C4 witness: the concrete toy instantiation round-trips the plaintext
`42` under pin `1234` and rejects pin `5678` with `DECRYPTION_FAILED`. -/
theorem crypto_roundtrip_wrong_key_witness :
    encryptJSON toyPrims 42 "1234" salt32 iv12 =
      .ok ⟨iv12, salt32, "1234" ++ "|" ++ salt32 ++ "|" ++ iv12 ++ "|" ++ "42"⟩
    ∧ decryptJSON toyPrims "1234" iv12 salt32
        ("1234" ++ "|" ++ salt32 ++ "|" ++ iv12 ++ "|" ++ "42") = .ok 42
    ∧ decryptJSON toyPrims "5678" iv12 salt32
        ("1234" ++ "|" ++ salt32 ++ "|" ++ iv12 ++ "|" ++ "42") =
      .error ⟨"Failed to decrypt data - invalid PIN or corrupted data",
              "DECRYPTION_FAILED"⟩ := by
  have h := crypto_roundtrip_wrong_key toyPrims 42 "1234" "5678" salt32 iv12
    (⟨iv12, salt32, "1234" ++ "|" ++ salt32 ++ "|" ++ iv12 ++ "|" ++ "42"⟩)
    (by decide) (by decide) (by decide) (by decide) (by decide) (by decide)
    (by decide) (by decide) (by decide) (by decide) (by decide) (by decide)
    (by decide) (by decide)
  exact ⟨by decide, h.1, h.2⟩

/-! ## Claim C5: unlock against the mnemonic canary -/

/-- C5: with the stored mnemonic canary encrypted under `pin`,
`unlock(pin, ttl)` transitions the session to Unlocked, holding the pin
in memory only and arming the auto-lock timer for `ttl`; `unlock(pin2,
ttl)` for an accepted `pin2` whose derived key fails the canary
decryption leaves the session exactly unchanged and raises
`INVALID_PIN`.  Platform-contract hypotheses as in the round-trip
theorem. -/
theorem unlock_canary_correct {K B P : Type} (pr : CryptoPrims K B P)
    (s : Session) (st : WalletState) (x : P) (pin pin2 : String)
    (salt iv : B) (eb : EncBlob) (ttlMs now : Int)
    (henc : encryptJSON pr x pin salt iv = .ok eb)
    (hmn : st.mnemonic = some eb)
    (_hne : pin2 ≠ pin) (hpin2 : pin2 ≠ "") (hlen2 : ¬ (pin2.length < 4))
    (hbsalt : pr.b64decode (pr.b64encode salt) = .ok salt)
    (hbiv : pr.b64decode (pr.b64encode iv) = .ok iv)
    (hbct : pr.b64decode (pr.b64encode (gcmBlob pr x pin salt iv)) =
      .ok (gcmBlob pr x pin salt iv))
    (hivne : pr.b64encode iv ≠ "")
    (hctne : pr.b64encode (gcmBlob pr x pin salt iv) ≠ "")
    (hivlen : pr.blen iv = 12)
    (haes : pr.aesDec (pinKey pr pin salt) iv (gcmBlob pr x pin salt iv) =
      some (pr.utf8enc (pr.stringify x)))
    (hauth : pr.aesDec (pinKey pr pin2 salt) iv (gcmBlob pr x pin salt iv) =
      none)
    (hutf : pr.utf8dec (pr.utf8enc (pr.stringify x)) = pr.stringify x)
    (hparse : pr.parse (pr.stringify x) = some x) :
    unlock pr s (.ok (some st)) pin ttlMs now =
      ({ unlocked := true, pin := some pin, lockTimer := some ttlMs,
         unlockTime := some now }, none)
    ∧ unlock pr s (.ok (some st)) pin2 ttlMs now =
        (s, some ⟨"Invalid PIN", "INVALID_PIN"⟩) := by
  obtain ⟨hpin, hlen, _hsalt, _hs, _hebeq⟩ := encryptJSON_ok_elim henc
  have hok := decryptJSON_encryptJSON pr x pin salt iv eb henc hbsalt hbiv
    hbct hivne hctne hivlen haes hutf hparse
  have hbad := decryptJSON_encryptJSON_wrongPin pr x pin pin2 salt iv eb henc
    hpin2 hlen2 hbsalt hbiv hbct hivne hctne hivlen hauth
  constructor
  · simp [unlock, hpin, hlen, hmn, hok, Except.map]
  · simp [unlock, hpin2, hlen2, hmn, hbad, Except.map]

/-- C5 witness: the concrete toy state whose mnemonic canary was
encrypted under pin `1234` unlocks with `1234` and stays locked with
`INVALID_PIN` for `5678`. -/
theorem unlock_canary_correct_witness :
    unlock toyPrims Session.initial
      (.ok (some
        { origins := [], accounts := [],
          mnemonic := some ⟨iv12, salt32,
            "1234" ++ "|" ++ salt32 ++ "|" ++ iv12 ++ "|" ++ "42"⟩,
          createdAt := 1, version := "1.0.0" }))
      "1234" 60000 5 =
      ({ unlocked := true, pin := some "1234", lockTimer := some 60000,
         unlockTime := some 5 }, none)
    ∧ unlock toyPrims Session.initial
        (.ok (some
          { origins := [], accounts := [],
            mnemonic := some ⟨iv12, salt32,
              "1234" ++ "|" ++ salt32 ++ "|" ++ iv12 ++ "|" ++ "42"⟩,
            createdAt := 1, version := "1.0.0" }))
        "5678" 60000 5 =
        (Session.initial, some ⟨"Invalid PIN", "INVALID_PIN"⟩) := by
  have h := unlock_canary_correct toyPrims Session.initial
    ({ origins := [], accounts := [],
       mnemonic := some ⟨iv12, salt32,
         "1234" ++ "|" ++ salt32 ++ "|" ++ iv12 ++ "|" ++ "42"⟩,
       createdAt := 1, version := "1.0.0" })
    42 "1234" "5678" salt32 iv12
    (⟨iv12, salt32, "1234" ++ "|" ++ salt32 ++ "|" ++ iv12 ++ "|" ++ "42"⟩)
    60000 5
    (by decide) (by decide) (by decide) (by decide) (by decide) (by decide)
    (by decide) (by decide) (by decide) (by decide) (by decide) (by decide)
    (by decide) (by decide) (by decide)
  exact ⟨h.1, h.2⟩

end HeroWallet
